import Mathlib

/-!
Verification development for the MinecraftMonitoring.ru repository
(`MonitoringMinecraft/run.py`): a Flask application that stores a list of
Minecraft servers in a JSON file, probes them on submission, and refreshes
the list with a background checker loop.

Modelling conventions:
* A stored server entry is a Python dict.  We model it as a structure whose
  optional keys (`version`, `players_online`, `players_max`, `description`,
  `latency`, `error`, `added_time`) are `Option`-typed: `none` means the key
  is absent from the dict.  `dict.update` then becomes a merge that
  overwrites exactly the present keys.
* Timestamps (`time.time()`), latencies and player counts are Python floats
  and ints; the claims under study never depend on float rounding, so all
  numbers are modelled as `Int`.
* The network (the `mcstatus` library call, together with the `int(port)`
  parse inside the same `try` block) is an oracle
  `net : String → Except String ProbeData` applied to the normalized
  address: `.ok` is a successful status query, `.error e` is any exception,
  carrying `str(e)`.
* The storage file is a `FileState`: missing, text that fails JSON parsing,
  or a parsed JSON value.
-/

namespace MonitoringMinecraft

/-- Data returned by a successful `JavaServer(...).status()` query. -/
structure ProbeData where
  version : String
  players_online : Int
  players_max : Int
  description : String
  latency : Int
  deriving Repr, DecidableEq

/-- A server entry, i.e. one dict in the stored JSON list.  `Option` fields
model dict keys that may be absent (`none` = key not present). -/
structure Server where
  address : String
  status : String
  version : Option String
  players_online : Option Int
  players_max : Option Int
  description : Option String
  latency : Option Int
  error : Option String
  last_checked : Int
  added_time : Option Int
  deriving Repr, DecidableEq

/-- Python's `':' in address` (membership of a single character). -/
def hasColon (s : String) : Bool :=
  s.data.contains ':'

/-- Python's `str.strip()`: remove leading and trailing whitespace.
Defined over the character list (Python also strips a few more Unicode
space characters; the claims never depend on those). -/
def strip (s : String) : String :=
  ⟨((s.data.dropWhile Char.isWhitespace).reverse.dropWhile Char.isWhitespace).reverse⟩

/-- The normalization performed at the top of `ping_server`:
`if ':' not in address: address += ':25565'`. -/
def normalize (address : String) : String :=
  if hasColon address then address else address ++ ":25565"

/-- `ping_server` from `run.py` (lines 32–59).  The whole `try` body after
normalization — `int(port)` and the `mcstatus` query — is the oracle `net`;
either branch returns a result dict, never an exception.  `now` is the
`time.time()` stamp. -/
def ping_server (net : String → Except String ProbeData) (now : Int)
    (address : String) : Server :=
  let addr := normalize address
  match net addr with
  | .ok d =>
      { address := addr
        status := "online"
        version := some d.version
        players_online := some d.players_online
        players_max := some d.players_max
        description := some d.description
        latency := some d.latency
        error := none
        last_checked := now
        added_time := none }
  | .error e =>
      { address := addr
        status := "offline"
        version := none
        players_online := none
        players_max := none
        description := none
        latency := none
        error := some e
        last_checked := now
        added_time := none }

/-- Python `dict.update`: keys present in `p` overwrite those of `s`; absent
(`none`) keys of `p` leave `s` untouched.  `address`, `status` and
`last_checked` are present in every ping result, so they always
overwrite. -/
def Server.updateWith (s p : Server) : Server where
  address := p.address
  status := p.status
  version := p.version.orElse fun _ => s.version
  players_online := p.players_online.orElse fun _ => s.players_online
  players_max := p.players_max.orElse fun _ => s.players_max
  description := p.description.orElse fun _ => s.description
  latency := p.latency.orElse fun _ => s.latency
  error := p.error.orElse fun _ => s.error
  last_checked := p.last_checked
  added_time := p.added_time.orElse fun _ => s.added_time

/-- One iteration of the `for server in servers` loop of `server_checker`
(lines 68–79): probe entries older than 300 s, keep them (updated) only when
the probe reports online; keep younger entries untouched.
`server.get('added_time', 0)` is `added_time.getD 0`. -/
def check_one (net : String → Except String ProbeData) (now : Int)
    (server : Server) : Option Server :=
  if now - server.added_time.getD 0 > 300 then
    let status := ping_server net now server.address
    if status.status = "online" then some (server.updateWith status) else none
  else
    some server

/-- The list-rebuilding body of one `server_checker` cycle (lines 65–81):
the `updated_servers` that get persisted by `save_servers`. -/
def server_checker_cycle (net : String → Except String ProbeData) (now : Int)
    (servers : List Server) : List Server :=
  servers.filterMap (check_one net now)

/-- The set of entries the cycle actually probes: those satisfying the age
condition `time.time() - server.get('added_time', 0) > 300`. -/
def probed_servers (now : Int) (servers : List Server) : List Server :=
  servers.filter fun s => now - s.added_time.getD 0 > 300

/-- A character of the `[\w\.\-]` class of the address pattern.  `\w` is
modelled over its ASCII fragment (letters, digits, underscore); the claims
never depend on non-ASCII word characters. -/
def isAddrChar (c : Char) : Bool :=
  c.isAlphanum || c == '_' || c == '.' || c == '-'

/-- `re.match(r'^[\w\.\-]+(:\d+)?$', address)` as a Boolean.  Because `':'`
is outside the `[\w\.\-]` class, a match must split at the first colon:
a nonempty run of address characters, optionally followed by `':'` and a
nonempty run of digits. -/
def valid_address (address : String) : Bool :=
  let base := address.data.takeWhile (fun c => !(c == ':'))
  let rest := address.data.dropWhile (fun c => !(c == ':'))
  !base.isEmpty && base.all isAddrChar &&
    (rest.isEmpty || (!rest.tail.isEmpty && rest.tail.all Char.isDigit))

/-- Dict access `info[key]` for an optional key, used while building the
result fragment: the online branch guarantees the key is present, so the
`none` case (Python would raise `KeyError`) is never reached there. -/
def jstr : Option String → String
  | some v => v
  | none => "KeyError"

/-- Dict access for an optional integer key, rendered into the fragment. -/
def jint : Option Int → String
  | some v => toString v
  | none => "KeyError"

/-- The `html_response` f-string of `add_server` (lines 151–162).  `address`
is the submitted (trimmed, un-normalized) address; the other interpolated
values come from the ping result.  The `{latency:.2f}` two-decimal float
formatting is abstracted to integer rendering. -/
def make_html (address : String) (info : Server) : String :=
  "\n        <div class=\"server-stats\" style=\"margin-top: 20px; padding: 15px; background: #f8f8f8; border-radius: 5px;\">\n            <h3>Статус сервера</h3>\n            <p><strong>Адрес:</strong> " ++
  address ++
  "</p>\n            <p><strong>Статус:</strong> <span style=\"color: green; font-weight: bold;\">Онлайн ✓</span></p>\n            <p><strong>Версия:</strong> " ++
  jstr info.version ++
  "</p>\n            <p><strong>Игроки:</strong> " ++
  jint info.players_online ++ "/" ++ jint info.players_max ++
  "</p>\n            <p><strong>Задержка:</strong> " ++
  jint info.latency ++
  " ms</p>\n            <p><strong>Описание:</strong> " ++
  jstr info.description ++
  "</p>\n            <p style=\"color: green; font-weight: bold;\">Сервер добавлен в мониторинг!</p>\n        </div>\n        "

/-- The three response shapes of the `POST /add-server` handler:
a 400 validation error, the offline-error fragment, or the success
fragment. -/
inductive AddResponse where
  | badRequest (msg : String)
  | pingError (msg : String)
  | ok (html : String)
  deriving Repr, DecidableEq

/-- The `POST /add-server` handler `add_server` (lines 127–169), minus the
HTTP plumbing: takes the submitted form `address`, the stored list, the
network oracle and the current time; returns the response, the resulting
stored list, and the number of probes performed (0 or 1). -/
def add_server (net : String → Except String ProbeData) (now : Int)
    (raw : String) (servers : List Server) :
    AddResponse × List Server × Nat :=
  let address := strip raw
  if address = "" then
    (.badRequest "Не введено название сервера", servers, 0)
  else if !valid_address address then
    (.badRequest "Неверный формат адреса", servers, 0)
  else
    let server_info := ping_server net now address
    if server_info.status = "online" then
      let servers' :=
        if servers.any fun s => s.address == server_info.address then
          servers
        else
          servers ++ [{ server_info with added_time := some now }]
      (.ok (make_html address server_info), servers', 1)
    else
      (.pingError ("<div class=\"error\" style=\"color:red; margin-top:20px;\">Сервер не отвечает: " ++
        server_info.error.getD "Unknown error" ++ "</div>"), servers, 1)

/-! ### Storage: `load_servers` / `save_servers` -/

/-- A JSON value, as far as the stored server dicts need. -/
inductive JValue where
  | str (s : String)
  | int (n : Int)
  | arr (xs : List JValue)
  | obj (fields : List (String × JValue))
  deriving Repr

/-- An optional dict key: emitted only when present, like a Python dict. -/
def optField (key : String) (f : α → JValue) : Option α → List (String × JValue)
  | none => []
  | some a => [(key, f a)]

/-- Encode one server entry as the JSON object `json.dump` writes for its
dict: exactly the present keys. -/
def Server.toJson (s : Server) : JValue :=
  .obj ([("status", .str s.status)] ++
    optField "version" .str s.version ++
    optField "players_online" .int s.players_online ++
    optField "players_max" .int s.players_max ++
    optField "description" .str s.description ++
    optField "latency" .int s.latency ++
    [("last_checked", .int s.last_checked), ("address", .str s.address)] ++
    optField "added_time" .int s.added_time ++
    optField "error" .str s.error)

/-- Read a string-valued key of a JSON object. -/
def getStr (fields : List (String × JValue)) (key : String) : Option String :=
  match fields.lookup key with
  | some (.str v) => some v
  | _ => none

/-- Read an integer-valued key of a JSON object. -/
def getInt (fields : List (String × JValue)) (key : String) : Option Int :=
  match fields.lookup key with
  | some (.int v) => some v
  | _ => none

/-- Decode one server dict back from JSON. -/
def Server.fromJson : JValue → Option Server
  | .obj fields => do
      let address ← getStr fields "address"
      let status ← getStr fields "status"
      let last_checked ← getInt fields "last_checked"
      some { address := address
             status := status
             version := getStr fields "version"
             players_online := getInt fields "players_online"
             players_max := getInt fields "players_max"
             description := getStr fields "description"
             latency := getInt fields "latency"
             error := getStr fields "error"
             last_checked := last_checked
             added_time := getInt fields "added_time" }
  | _ => none

/-- Encode the server list as the JSON array `save_servers` writes. -/
def encodeServers (servers : List Server) : JValue :=
  .arr (servers.map Server.toJson)

/-- Decode a JSON value as a list of server dicts. -/
def decodeServers : JValue → Option (List Server)
  | .arr xs => xs.mapM Server.fromJson
  | _ => none

/-- The storage file `servers.json`: absent, present but not valid JSON
(`json.load` raises `JSONDecodeError`), or holding a parsed JSON value. -/
inductive FileState where
  | missing
  | corrupt
  | json (v : JValue)
  deriving Repr

/-- `save_servers` (lines 27–29): overwrite the file with the encoded
list. -/
def save_servers (servers : List Server) : FileState :=
  .json (encodeServers servers)

/-- `load_servers` (lines 17–24): `[]` when the file is missing or its text
is not valid JSON; otherwise the parsed value.  `none` models `json.load`
returning data that is not a list of server dicts — Python would pass such
data through untyped, but within this development the file is only ever
written by `save_servers`, whose output always decodes. -/
def load_servers : FileState → Option (List Server)
  | .missing => some []
  | .corrupt => some []
  | .json v => decodeServers v

/-! ### Concrete fixtures used by witnesses and counterexamples -/

/-- A successful probe result: version 1.20.4, players 5/20. -/
def demoProbe : ProbeData :=
  { version := "1.20.4", players_online := 5, players_max := 20
    description := "A Minecraft Server", latency := 42 }

/-- A demo network: `mc.example.com:25565` answers, everything else times
out. -/
def netDemo : String → Except String ProbeData := fun a =>
  if a = "mc.example.com:25565" then .ok demoProbe else .error "timed out"

/-- An entry added 100 s before the demo cycle time 1000: inside the grace
period. -/
def youngServer : Server :=
  { address := "fresh.example.com:25565", status := "online"
    version := some "1.20.4", players_online := some 2, players_max := some 10
    description := some "fresh", latency := some 33, error := none
    last_checked := 950, added_time := some 900 }

/-- An old entry whose address no longer answers under `netDemo`. -/
def deadServer : Server :=
  { address := "dead.example.com:25565", status := "online"
    version := some "1.19", players_online := some 0, players_max := some 10
    description := some "dead", latency := some 70, error := none
    last_checked := 400, added_time := some 100 }

/-- A stored entry for the demo address; a list holding it twice exhibits a
storage file with a pre-existing duplicate. -/
def dupServer : Server :=
  { address := "mc.example.com:25565", status := "online", version := some "1.20.1"
    players_online := some 1, players_max := some 10, description := some "dup"
    latency := some 5, error := none, last_checked := 10, added_time := some 0 }

/-- An old entry whose address still answers under `netDemo`. -/
def liveServer : Server :=
  { address := "mc.example.com:25565", status := "online"
    version := some "1.20.1", players_online := some 3, players_max := some 20
    description := some "live", latency := some 55, error := none
    last_checked := 400, added_time := some 100 }

/-! ### Basic lemmas about normalization and `ping_server` -/

theorem hasColon_append_port (a : String) : hasColon (a ++ ":25565") = true := by
  have h : (':' : Char) ∈ (a ++ ":25565").data := by
    rw [String.data_append]
    exact List.mem_append_right _ (by decide)
  simp [hasColon, List.contains_iff_exists_mem_beq]

theorem normalize_hasColon (a : String) : hasColon (normalize a) = true := by
  rw [normalize]
  split
  · assumption
  · exact hasColon_append_port a

theorem normalize_idem (a : String) : normalize (normalize a) = normalize a := by
  have h := normalize_hasColon a
  rw [show normalize (normalize a) =
        if hasColon (normalize a) then normalize a else normalize a ++ ":25565" from rfl,
      h]
  simp

theorem ping_server_ok (net : String → Except String ProbeData) (now : Int)
    (a : String) (d : ProbeData) (h : net (normalize a) = .ok d) :
    ping_server net now a =
      { address := normalize a, status := "online", version := some d.version
        players_online := some d.players_online, players_max := some d.players_max
        description := some d.description, latency := some d.latency, error := none
        last_checked := now, added_time := none } := by
  simp [ping_server, h]

theorem ping_server_err (net : String → Except String ProbeData) (now : Int)
    (a : String) (e : String) (h : net (normalize a) = .error e) :
    ping_server net now a =
      { address := normalize a, status := "offline", version := none
        players_online := none, players_max := none
        description := none, latency := none, error := some e
        last_checked := now, added_time := none } := by
  simp [ping_server, h]

theorem ping_server_address (net : String → Except String ProbeData)
    (now : Int) (a : String) : (ping_server net now a).address = normalize a := by
  cases h : net (normalize a)
  · rw [ping_server_err net now a _ h]
  · rw [ping_server_ok net now a _ h]

theorem ping_server_status_online (net : String → Except String ProbeData)
    (now : Int) (a : String) :
    (ping_server net now a).status = "online" ↔ ∃ d, net (normalize a) = .ok d := by
  cases h : net (normalize a) with
  | error e =>
      rw [ping_server_err net now a _ h]
      simp
  | ok d =>
      rw [ping_server_ok net now a _ h]
      exact ⟨fun _ => ⟨d, rfl⟩, fun _ => rfl⟩

/-! ### JSON round-trip lemmas -/

theorem Server.fromJson_toJson (s : Server) : Server.fromJson s.toJson = some s := by
  rcases s with ⟨addr, st, v, po, pm, de, la, er, lc, ad⟩
  rcases v with _ | v <;> rcases po with _ | po <;> rcases pm with _ | pm <;>
    rcases de with _ | de <;> rcases la with _ | la <;> rcases er with _ | er <;>
    rcases ad with _ | ad <;>
    simp [Server.toJson, Server.fromJson, optField, getStr, getInt, List.lookup]

theorem decodeServers_encodeServers (l : List Server) :
    decodeServers (encodeServers l) = some l := by
  induction l with
  | nil => rfl
  | cons s t ih =>
      rw [encodeServers] at ih ⊢
      rw [decodeServers] at ih ⊢
      rw [List.map_cons, List.mapM_cons, Server.fromJson_toJson, ih]
      rfl

/-! ### The claims -/

/-- C5: for every network behavior and submitted address, `ping_server`
returns a result dict — either status `"online"` with version, player
counts, latency, description and timestamp, or status `"offline"` with an
error message and timestamp — and never propagates an exception (it is a
total function of the oracle's outcome). -/
theorem ping_server_never_raises (net : String → Except String ProbeData)
    (now : Int) (address : String) :
    ((ping_server net now address).status = "online" ∧
      (ping_server net now address).version.isSome ∧
      (ping_server net now address).players_online.isSome ∧
      (ping_server net now address).players_max.isSome ∧
      (ping_server net now address).description.isSome ∧
      (ping_server net now address).latency.isSome ∧
      (ping_server net now address).last_checked = now) ∨
    ((ping_server net now address).status = "offline" ∧
      (ping_server net now address).error.isSome ∧
      (ping_server net now address).last_checked = now) := by
  cases h : net (normalize address) with
  | error e =>
      right
      rw [ping_server_err net now address _ h]
      exact ⟨rfl, rfl, rfl⟩
  | ok d =>
      left
      rw [ping_server_ok net now address _ h]
      exact ⟨rfl, rfl, rfl, rfl, rfl, rfl, rfl⟩

/-- C7: saving any server list and immediately loading the storage file
returns exactly the saved list, every field of every entry preserved. -/
theorem load_after_save_roundtrip (servers : List Server) :
    load_servers (save_servers servers) = some servers := by
  rw [save_servers, load_servers]
  exact decodeServers_encodeServers servers

/-- C10: `load_servers` is total at its interface — a missing storage file
and a file whose text is not valid JSON both yield the empty list, not an
exception. -/
theorem load_servers_total_on_bad_file :
    load_servers .missing = some [] ∧ load_servers .corrupt = some [] :=
  ⟨rfl, rfl⟩

theorem ping_server_last_checked (net : String → Except String ProbeData)
    (now : Int) (a : String) : (ping_server net now a).last_checked = now := by
  cases h : net (normalize a)
  · rw [ping_server_err net now a _ h]
  · rw [ping_server_ok net now a _ h]

/-- C1: after a refresh cycle, every persisted entry either has status
`"online"` stamped by the probe just performed (`last_checked = now`), or
its `added_time` is within the 300 s grace period of the cycle's time; and
an entry whose re-probe came back offline is mapped to `none` by the cycle,
so it does not survive. -/
theorem checker_cycle_invariant (net : String → Except String ProbeData)
    (now : Int) (servers : List Server) :
    (∀ s ∈ server_checker_cycle net now servers,
        (s.status = "online" ∧ s.last_checked = now) ∨
        now - s.added_time.getD 0 ≤ 300) ∧
    (∀ s ∈ servers, now - s.added_time.getD 0 > 300 →
        (ping_server net now s.address).status = "offline" →
        check_one net now s = none) := by
  constructor
  · intro s hs
    rw [server_checker_cycle, List.mem_filterMap] at hs
    obtain ⟨t, _, hch⟩ := hs
    simp only [check_one] at hch
    split at hch
    case isTrue hage =>
      split at hch
      case isTrue hon =>
        injection hch with h
        left
        refine ⟨?_, ?_⟩
        · rw [← h]
          exact hon
        · rw [← h]
          exact ping_server_last_checked net now t.address
      case isFalse => exact Option.noConfusion hch
    case isFalse hyoung =>
      injection hch with h
      right
      rw [← h]
      omega
  · intro s _ hage hoff
    simp only [check_one]
    rw [if_pos hage, hoff]
    simp

/-- C3: a server entry added less than 300 s before the cycle's time is not
probed by the cycle and appears unchanged in the persisted output. -/
theorem young_server_kept_unprobed (net : String → Except String ProbeData)
    (now : Int) (servers : List Server) (s : Server) (t : Int)
    (hmem : s ∈ servers) (ht : s.added_time = some t) (hage : now - t < 300) :
    s ∈ server_checker_cycle net now servers ∧ s ∉ probed_servers now servers := by
  have hcond : ¬(now - s.added_time.getD 0 > 300) := by
    rw [ht]
    simp only [Option.getD_some]
    omega
  constructor
  · rw [server_checker_cycle, List.mem_filterMap]
    refine ⟨s, hmem, ?_⟩
    simp only [check_one]
    rw [if_neg hcond]
  · rw [probed_servers]
    intro hmm
    rw [List.mem_filter] at hmm
    exact hcond (by simpa using hmm.2)

/-- C4: an entry older than the grace period whose re-probe reports offline
is absent from the list the cycle persists. -/
theorem offline_recheck_pruned (net : String → Except String ProbeData)
    (now : Int) (servers : List Server) (s : Server)
    (hage : now - s.added_time.getD 0 > 300)
    (hoff : (ping_server net now s.address).status = "offline") :
    s ∉ server_checker_cycle net now servers := by
  intro hmem
  rw [server_checker_cycle, List.mem_filterMap] at hmem
  obtain ⟨t, _, hch⟩ := hmem
  simp only [check_one] at hch
  split at hch
  case isTrue htage =>
    split at hch
    case isTrue hon =>
      injection hch with h
      obtain ⟨d, hd⟩ := (ping_server_status_online net now t.address).mp hon
      have haddr : s.address = normalize t.address := by
        rw [← h]
        exact ping_server_address net now t.address
      have hon' : (ping_server net now s.address).status = "online" := by
        rw [ping_server_status_online]
        exact ⟨d, by rw [haddr, normalize_idem]; exact hd⟩
      rw [hoff] at hon'
      exact absurd hon' (by decide)
    case isFalse => exact Option.noConfusion hch
  case isFalse htyoung =>
    injection hch with h
    rw [h] at htyoung
    exact htyoung hage

/-- C9: a re-probed entry that is kept (probe online) is kept as the merge
of the probe dict into the existing dict: `added_time` (and the stale
`error` key, which the online probe dict lacks) are untouched, while
exactly the probe-result fields (status, version, player counts,
description, latency, last_checked, address) take the probe's values. -/
theorem recheck_merges_only_probe_fields (net : String → Except String ProbeData)
    (now : Int) (servers : List Server) (s : Server) (d : ProbeData)
    (hmem : s ∈ servers) (hage : now - s.added_time.getD 0 > 300)
    (hnet : net (normalize s.address) = .ok d) :
    s.updateWith (ping_server net now s.address) ∈ server_checker_cycle net now servers ∧
    (s.updateWith (ping_server net now s.address)).added_time = s.added_time ∧
    (s.updateWith (ping_server net now s.address)).error = s.error ∧
    (s.updateWith (ping_server net now s.address)).status = "online" ∧
    (s.updateWith (ping_server net now s.address)).version = some d.version ∧
    (s.updateWith (ping_server net now s.address)).players_online = some d.players_online ∧
    (s.updateWith (ping_server net now s.address)).players_max = some d.players_max ∧
    (s.updateWith (ping_server net now s.address)).description = some d.description ∧
    (s.updateWith (ping_server net now s.address)).latency = some d.latency ∧
    (s.updateWith (ping_server net now s.address)).last_checked = now ∧
    (s.updateWith (ping_server net now s.address)).address = normalize s.address := by
  have hping := ping_server_ok net now s.address d hnet
  refine ⟨?_, ?_⟩
  · rw [server_checker_cycle, List.mem_filterMap]
    refine ⟨s, hmem, ?_⟩
    simp only [check_one]
    rw [if_pos hage, hping]
    simp
  · rw [hping]
    simp [Server.updateWith, Option.orElse]

theorem add_server_online_eq (net : String → Except String ProbeData) (now : Int)
    (raw : String) (servers : List Server) (d : ProbeData)
    (hne : (strip raw) ≠ "") (hv : valid_address (strip raw) = true)
    (hnet : net (normalize (strip raw)) = .ok d) :
    add_server net now raw servers =
      (.ok (make_html (strip raw) (ping_server net now (strip raw))),
       (if servers.any fun s => s.address == normalize (strip raw) then servers
        else servers ++ [{ ping_server net now (strip raw) with added_time := some now }]),
       1) := by
  have hping := ping_server_ok net now (strip raw) d hnet
  simp only [add_server]
  rw [if_neg hne, hv]
  simp only [Bool.not_true, Bool.false_eq_true, if_false]
  rw [hping]
  simp

/-- C6: a POST whose trimmed address is empty or fails the address pattern
gets a validation-error response; no probe is performed and the stored list
is unchanged. -/
theorem add_invalid_rejected (net : String → Except String ProbeData)
    (now : Int) (raw : String) (servers : List Server)
    (h : (strip raw) = "" ∨ valid_address (strip raw) = false) :
    (∃ msg, (add_server net now raw servers).1 = .badRequest msg) ∧
    (add_server net now raw servers).2.1 = servers ∧
    (add_server net now raw servers).2.2 = 0 := by
  rcases h with h | h
  · refine ⟨⟨"Не введено название сервера", ?_⟩, ?_, ?_⟩ <;>
      simp [add_server, h]
  · rcases eq_or_ne (strip raw) "" with h0 | h0
    · refine ⟨⟨"Не введено название сервера", ?_⟩, ?_, ?_⟩ <;>
        simp [add_server, h0]
    · refine ⟨⟨"Неверный формат адреса", ?_⟩, ?_, ?_⟩ <;>
        simp [add_server, h0, h]

/-- C2 counterexample: with a stored list already holding two entries for
`mc.example.com:25565` (and that server online), adding `mc.example.com`
twice leaves two entries with the normalized address, not exactly one — the
dedup check prevents appending but never removes pre-existing
duplicates. -/
theorem add_twice_dedup_counterexample :
    ¬((((add_server netDemo 1001 "mc.example.com"
          (add_server netDemo 1000 "mc.example.com" [dupServer, dupServer]).2.1).2.1).filter
        fun s => s.address == "mc.example.com:25565").length = 1) ∧
    (((add_server netDemo 1001 "mc.example.com"
          (add_server netDemo 1000 "mc.example.com" [dupServer, dupServer]).2.1).2.1).filter
        fun s => s.address == "mc.example.com:25565").length = 2 := by
  constructor
  · decide
  · decide

/-- C2 amended: if the probe of the normalized submitted address reports
online (and the address passes validation) and the stored list holds at
most one entry with that normalized address, then after performing the
add-server operation twice with the same submitted address exactly one
entry with the normalized address is stored, and the second add leaves the
stored list unchanged. -/
theorem add_twice_dedup (net : String → Except String ProbeData)
    (now1 now2 : Int) (raw : String) (servers : List Server) (d : ProbeData)
    (hne : strip raw ≠ "") (hv : valid_address (strip raw) = true)
    (hnet : net (normalize (strip raw)) = .ok d)
    (hcount : (servers.filter fun s => s.address == normalize (strip raw)).length ≤ 1) :
    (((add_server net now2 raw (add_server net now1 raw servers).2.1).2.1).filter
        fun s => s.address == normalize (strip raw)).length = 1 ∧
    (add_server net now2 raw (add_server net now1 raw servers).2.1).2.1 =
      (add_server net now1 raw servers).2.1 := by
  have h1 := add_server_online_eq net now1 raw servers d hne hv hnet
  cases hany : servers.any fun s => s.address == normalize (strip raw) with
  | true =>
      have hl1 : (add_server net now1 raw servers).2.1 = servers := by
        rw [h1]
        simp [hany]
      have h2 := add_server_online_eq net now2 raw servers d hne hv hnet
      have hl2 : (add_server net now2 raw
          (add_server net now1 raw servers).2.1).2.1 = servers := by
        rw [hl1, h2]
        simp [hany]
      refine ⟨?_, by rw [hl2, hl1]⟩
      rw [hl2]
      obtain ⟨x, hx, hpx⟩ := List.any_eq_true.mp hany
      have hxf : x ∈ servers.filter fun s => s.address == normalize (strip raw) :=
        List.mem_filter.mpr ⟨hx, hpx⟩
      have hpos : 0 < (servers.filter fun s => s.address == normalize (strip raw)).length :=
        List.length_pos.mpr (List.ne_nil_of_mem hxf)
      omega
  | false =>
      have hl1 : (add_server net now1 raw servers).2.1 =
          servers ++ [{ ping_server net now1 (strip raw) with added_time := some now1 }] := by
        rw [h1]
        simp [hany]
      have he1addr :
          ({ ping_server net now1 (strip raw) with added_time := some now1 } : Server).address =
            normalize (strip raw) :=
        ping_server_address net now1 (strip raw)
      have hany1 : ((servers ++
          [{ ping_server net now1 (strip raw) with added_time := some now1 }]).any
            fun s => s.address == normalize (strip raw)) = true := by
        rw [List.any_append]
        simp only [List.any_cons, List.any_nil, Bool.or_false, Bool.or_eq_true,
          beq_iff_eq]
        exact Or.inr he1addr
      have h2 := add_server_online_eq net now2 raw (servers ++
        [{ ping_server net now1 (strip raw) with added_time := some now1 }]) d hne hv hnet
      have hl2 : (add_server net now2 raw
          (add_server net now1 raw servers).2.1).2.1 =
          servers ++ [{ ping_server net now1 (strip raw) with added_time := some now1 }] := by
        rw [hl1, h2]
        simp [hany1]
      refine ⟨?_, by rw [hl2, hl1]⟩
      rw [hl2, List.filter_append]
      have hnil : (servers.filter fun s => s.address == normalize (strip raw)) = [] := by
        rw [List.filter_eq_nil_iff]
        simp only [List.any_eq_false] at hany
        exact hany
      rw [hnil]
      simp [List.filter, ping_server_address]

theorem five_twenty_chunk (X : String) :
    ("5" : String) ++ ("/" ++ ("20" ++ X)) = "5/20" ++ X := by
  rw [← String.append_assoc, ← String.append_assoc]
  exact rfl

/-- C8: a submitted address containing no `':'` is normalized by appending
the default port — the entry is stored under `address ++ ":25565"` — and
for an online probe whose player counts are 5 and 20 the success fragment
contains the string "5/20". -/
theorem add_normalizes_and_renders (net : String → Except String ProbeData)
    (now : Int) (raw : String) (servers : List Server) (d : ProbeData)
    (hcolon : hasColon (strip raw) = false)
    (hne : strip raw ≠ "") (hv : valid_address (strip raw) = true)
    (hnet : net (strip raw ++ ":25565") = .ok d)
    (hnew : (servers.any fun s => s.address == strip raw ++ ":25565") = false)
    (h5 : d.players_online = 5) (h20 : d.players_max = 20) :
    (∃ e, (add_server net now raw servers).2.1 = servers ++ [e] ∧
        e.address = strip raw ++ ":25565" ∧ e.added_time = some now) ∧
    (∃ pre post, (add_server net now raw servers).1 =
        .ok (pre ++ "5/20" ++ post)) := by
  have hnorm : normalize (strip raw) = strip raw ++ ":25565" := by
    rw [normalize, hcolon]
    simp
  have hnet' : net (normalize (strip raw)) = .ok d := by
    rw [hnorm]
    exact hnet
  have h1 := add_server_online_eq net now raw servers d hne hv hnet'
  have hping := ping_server_ok net now (strip raw) d hnet'
  have hanyn : (servers.any fun s => s.address == normalize (strip raw)) = false := by
    rw [hnorm]
    exact hnew
  constructor
  · refine ⟨{ ping_server net now (strip raw) with added_time := some now }, ?_, ?_, rfl⟩
    · rw [h1]
      simp [hanyn]
    · show (ping_server net now (strip raw)).address = _
      rw [ping_server_address, hnorm]
  · refine ⟨"\n        <div class=\"server-stats\" style=\"margin-top: 20px; padding: 15px; background: #f8f8f8; border-radius: 5px;\">\n            <h3>Статус сервера</h3>\n            <p><strong>Адрес:</strong> " ++
      strip raw ++
      "</p>\n            <p><strong>Статус:</strong> <span style=\"color: green; font-weight: bold;\">Онлайн ✓</span></p>\n            <p><strong>Версия:</strong> " ++
      d.version ++
      "</p>\n            <p><strong>Игроки:</strong> ",
      "</p>\n            <p><strong>Задержка:</strong> " ++
      toString d.latency ++
      " ms</p>\n            <p><strong>Описание:</strong> " ++
      d.description ++
      "</p>\n            <p style=\"color: green; font-weight: bold;\">Сервер добавлен в мониторинг!</p>\n        </div>\n        ", ?_⟩
    rw [h1, hping]
    simp only [make_html, jstr, jint, h5, h20]
    rw [show (toString (5 : Int)) = "5" from rfl, show (toString (20 : Int)) = "20" from rfl]
    simp only [String.append_assoc, five_twenty_chunk]

/-! ### Witnesses: the claim theorems applied at concrete inputs -/

/-- Witness for C1 at a concrete cycle: `youngServer` is inside the grace
period, `deadServer` is old and its probe fails. -/
theorem checker_cycle_invariant_witness :
    ((youngServer.status = "online" ∧ youngServer.last_checked = 1000) ∨
      (1000 : Int) - youngServer.added_time.getD 0 ≤ 300) ∧
    check_one netDemo 1000 deadServer = none :=
  ⟨(checker_cycle_invariant netDemo 1000 [youngServer, deadServer]).1 youngServer
      (by decide),
   (checker_cycle_invariant netDemo 1000 [youngServer, deadServer]).2 deadServer
      (by decide) (by decide) (by decide)⟩

/-- Witness for C3: the entry added 100 s before the cycle is kept
unchanged and is not probed. -/
theorem young_server_kept_unprobed_witness :
    youngServer ∈ server_checker_cycle netDemo 1000 [youngServer, deadServer] ∧
    youngServer ∉ probed_servers 1000 [youngServer, deadServer] :=
  young_server_kept_unprobed netDemo 1000 [youngServer, deadServer] youngServer 900
    (by decide) (by decide) (by decide)

/-- Witness for C4: the old entry whose probe fails is absent from the
persisted cycle output. -/
theorem offline_recheck_pruned_witness :
    deadServer ∉ server_checker_cycle netDemo 1000 [youngServer, deadServer] :=
  offline_recheck_pruned netDemo 1000 [youngServer, deadServer] deadServer
    (by decide) (by decide)

/-- Witness for C9: the re-probed, kept entry retains its `added_time`. -/
theorem recheck_merges_only_probe_fields_witness :
    liveServer.updateWith (ping_server netDemo 1000 liveServer.address) ∈
      server_checker_cycle netDemo 1000 [liveServer] ∧
    (liveServer.updateWith (ping_server netDemo 1000 liveServer.address)).added_time =
      liveServer.added_time :=
  ⟨(recheck_merges_only_probe_fields netDemo 1000 [liveServer] liveServer demoProbe
      (by decide) (by decide) rfl).1,
   (recheck_merges_only_probe_fields netDemo 1000 [liveServer] liveServer demoProbe
      (by decide) (by decide) rfl).2.1⟩

/-- Witness for C6: the malformed address `!!bad` is rejected with no probe
and no storage mutation. -/
theorem add_invalid_rejected_witness :
    (∃ msg, (add_server netDemo 0 "!!bad" []).1 = .badRequest msg) ∧
    (add_server netDemo 0 "!!bad" []).2.1 = [] ∧
    (add_server netDemo 0 "!!bad" []).2.2 = 0 :=
  add_invalid_rejected netDemo 0 "!!bad" [] (Or.inr (by decide))

/-- Witness for the amended C2: adding `mc.example.com` twice to an empty
store leaves exactly one entry. -/
theorem add_twice_dedup_witness :
    (((add_server netDemo 1001 "mc.example.com"
        (add_server netDemo 1000 "mc.example.com" []).2.1).2.1).filter
      fun s => s.address == normalize (strip "mc.example.com")).length = 1 ∧
    (add_server netDemo 1001 "mc.example.com"
        (add_server netDemo 1000 "mc.example.com" []).2.1).2.1 =
      (add_server netDemo 1000 "mc.example.com" []).2.1 :=
  add_twice_dedup netDemo 1000 1001 "mc.example.com" [] demoProbe
    (by decide) (by decide) rfl (by decide)

/-- Witness for C8: submitting `mc.example.com` stores
`mc.example.com:25565` and the fragment contains "5/20". -/
theorem add_normalizes_and_renders_witness :
    (∃ e, (add_server netDemo 500 "mc.example.com" []).2.1 = [] ++ [e] ∧
        e.address = strip "mc.example.com" ++ ":25565" ∧ e.added_time = some 500) ∧
    (∃ pre post, (add_server netDemo 500 "mc.example.com" []).1 =
        .ok (pre ++ "5/20" ++ post)) :=
  add_normalizes_and_renders netDemo 500 "mc.example.com" [] demoProbe
    (by decide) (by decide) (by decide) rfl (by decide) rfl rfl

end MonitoringMinecraft
